import Mathlib

/-!
Verification development for the procedural-lightning generator
(`src/main.cpp` of the opengl-lightning repository).

The C++ core is embedded shallowly:

* `float` values are modelled as rationals (`ℚ`); the properties checked
  here are structural (control flow, counts, stack discipline, exact
  restoration/copying of values), which the real-number semantics of the
  source expresses faithfully.
* the C `rand()` generator is an explicit stream `g : ℕ → ℕ` together with
  a cursor index; a call to `rand()` reads `g i % (RAND_MAX + 1)` and
  advances the cursor.  `float(rand()) / float(RAND_MAX)` is `randFloat`.
* the irrational collaborators `glm::normalize`, `glm::rotate (about the
  z-axis, by glm::radians(angle))`, `cos` and `sin` are uninterpreted
  function parameters carried in the configuration record: no claim here
  depends on their numeric values, only on where the code applies them.
* the mutable vertex buffers become return values: each embedded function
  returns the floats it appends, in order, and callers concatenate.
-/

/-- A 3D vector of rationals, embedding `glm::vec3`. -/
structure Vec3 where
  x : ℚ
  y : ℚ
  z : ℚ
deriving DecidableEq

def Vec3.add (a b : Vec3) : Vec3 := ⟨a.x + b.x, a.y + b.y, a.z + b.z⟩

def Vec3.sub (a b : Vec3) : Vec3 := ⟨a.x - b.x, a.y - b.y, a.z - b.z⟩

def Vec3.smul (v : Vec3) (q : ℚ) : Vec3 := ⟨v.x * q, v.y * q, v.z * q⟩

instance : Add Vec3 := ⟨Vec3.add⟩

instance : Sub Vec3 := ⟨Vec3.sub⟩

instance : HMul Vec3 ℚ Vec3 := ⟨Vec3.smul⟩

/-- Value of the C library constant `RAND_MAX` (glibc). -/
def RAND_MAX : ℕ := 2147483647

/-- One `rand()` call: the `i`-th value of the ambient stream, reduced into
`[0, RAND_MAX]`. -/
def randDraw (g : ℕ → ℕ) (i : ℕ) : ℕ := g i % (RAND_MAX + 1)

/-- Embedding of `float(rand()) / float(RAND_MAX)` (src/main.cpp:503,523-524,
600,656,662,807-820): the shared uniform draw used by every stochastic step. -/
def randFloat (g : ℕ → ℕ) (i : ℕ) : ℚ := (randDraw g i : ℚ) / (RAND_MAX : ℚ)

/-- Live configuration globals of src/main.cpp (lines 61-121) plus the
uninterpreted real-valued collaborators (`normalize`, z-axis `rotate`,
`cos`, `sin`) whose irrational outputs no claim depends on. -/
structure Config where
  maxDepth : ℕ
  displacement : ℚ
  branchChance : ℚ
  lsystemIterations : ℕ
  segmentLength : ℚ
  angleVariance : ℚ
  probFF : ℚ
  probPlus : ℚ
  probMinus : ℚ
  lightningColor : Vec3
  particleLifetime : ℚ
  particleEmissionRate : ℚ
  nrm : Vec3 → Vec3
  rotZ : Vec3 → ℚ → Vec3
  cosF : ℚ → ℚ
  sinF : ℚ → ℚ

/-! ## Branch grammar engine (src/main.cpp:589-679) -/

/-- One rewriting pass of `generateLSystem`'s inner loop (src/main.cpp:596-618):
each `F` draws `r` and becomes `FF`, `F[+F]` or `F[-F]`; other symbols pass
through.  Returns the rewritten word and the advanced rand cursor. -/
def lsysStep (cfg : Config) (g : ℕ → ℕ) : List Char → ℕ → List Char × ℕ
  | [], i => ([], i)
  | c :: rest, i =>
    if c = 'F' then
      let r := randFloat g i
      let rep :=
        if r < cfg.probFF then ['F', 'F']
        else if r < cfg.probFF + cfg.probPlus then ['F', '[', '+', 'F', ']']
        else ['F', '[', '-', 'F', ']']
      let t := lsysStep cfg g rest (i + 1)
      (rep ++ t.1, t.2)
    else
      let t := lsysStep cfg g rest i
      (c :: t.1, t.2)

/-- Embeds `generateLSystem` (src/main.cpp:589-623): iterate the rewriting pass. -/
def generateLSystem (cfg : Config) (g : ℕ → ℕ) : ℕ → List Char → ℕ → List Char × ℕ
  | 0, w, i => (w, i)
  | n + 1, w, i =>
    let t := lsysStep cfg g w i
    generateLSystem cfg g n t.1 t.2

/-- Turtle-walker state of `interpretLSystem` (src/main.cpp:628-636): current
position and direction, the saved-state stack, the floats appended so far by
this call, and the rand cursor. -/
structure TState where
  pos : Vec3
  dir : Vec3
  stack : List (Vec3 × Vec3)
  out : List ℚ
  idx : ℕ

/-- One symbol of `interpretLSystem`'s switch (src/main.cpp:638-677). -/
def stepChar (cfg : Config) (g : ℕ → ℕ) (s : TState) (c : Char) : TState :=
  if c = 'F' then
    let nextPos := s.pos + s.dir * cfg.segmentLength
    { s with
        out := s.out ++ [s.pos.x, s.pos.y, s.pos.z, nextPos.x, nextPos.y, nextPos.z]
        pos := nextPos }
  else if c = '+' then
    let angle := cfg.angleVariance * randFloat g s.idx
    { s with dir := cfg.rotZ s.dir angle, idx := s.idx + 1 }
  else if c = '-' then
    let angle := cfg.angleVariance * randFloat g s.idx
    { s with dir := cfg.rotZ s.dir (-angle), idx := s.idx + 1 }
  else if c = '[' then
    { s with stack := (s.pos, s.dir) :: s.stack }
  else if c = ']' then
    match s.stack with
    | [] => s
    | (p, d) :: rest => { s with pos := p, dir := d, stack := rest }
  else s

/-- The symbol loop of `interpretLSystem`. -/
def runChars (cfg : Config) (g : ℕ → ℕ) (s : TState) : List Char → TState
  | [] => s
  | c :: cs => runChars cfg g (stepChar cfg g s c) cs

/-- Embeds `interpretLSystem` (src/main.cpp:625-679): walk the word from `origin`
with normalized `baseDirection`; returns the appended floats and the advanced
rand cursor. -/
def interpretLSystem (cfg : Config) (g : ℕ → ℕ) (w : List Char)
    (origin baseDirection : Vec3) (i : ℕ) : List ℚ × ℕ :=
  let s := runChars cfg g
    { pos := origin, dir := cfg.nrm baseDirection, stack := [], out := [], idx := i } w
  (s.out, s.idx)

/-! ## Fractal path generator (src/main.cpp:488-528) -/

/-- The two endpoint vertices of one segment, flattened (6 floats). -/
def segFloats (a b : Vec3) : List ℚ := [a.x, a.y, a.z, b.x, b.y, b.z]

/-- Embeds `generateLightning` (src/main.cpp:488-528).  Depth 0 appends the leaf
segment's endpoints and then rolls the branch draw: `r > branchChance` emits
nothing more, `r < probPlus / probFF * branchChance` expands and interprets
axiom `[+F]`, otherwise axiom `[-F]`, each anchored at `a` along
`normalize(b - a)`.  Positive depth recurses on the jittered midpoint. -/
def generateLightning (cfg : Config) (g : ℕ → ℕ) :
    ℕ → Vec3 → Vec3 → ℚ → ℕ → List ℚ × ℕ
  | 0, a, b, _disp, i =>
    let r := randFloat g i
    if cfg.branchChance < r then
      (segFloats a b, i + 1)
    else if r < cfg.probPlus / cfg.probFF * cfg.branchChance then
      let t := generateLSystem cfg g cfg.lsystemIterations ['[', '+', 'F', ']'] (i + 1)
      let u := interpretLSystem cfg g t.1 a (cfg.nrm (b - a)) t.2
      (segFloats a b ++ u.1, u.2)
    else
      let t := generateLSystem cfg g cfg.lsystemIterations ['[', '-', 'F', ']'] (i + 1)
      let u := interpretLSystem cfg g t.1 a (cfg.nrm (b - a)) t.2
      (segFloats a b ++ u.1, u.2)
  | d + 1, a, b, disp, i =>
    let mid0 := (a + b) * (1 / 2 : ℚ)
    let mid : Vec3 :=
      ⟨mid0.x,
       mid0.y + (randFloat g i - 1 / 2) * disp,
       mid0.z + (randFloat g (i + 1) - 1 / 2) * disp⟩
    let t := generateLightning cfg g d a mid (disp * (1 / 2)) (i + 2)
    let u := generateLightning cfg g d mid b (disp * (1 / 2)) t.2
    (t.1 ++ u.1, u.2)

/-! ## Regeneration (src/main.cpp:530-553) -/

/-- A stick object (src/main.cpp:93-98). -/
structure Stick where
  position : Vec3
  height : ℚ
  color : Vec3
deriving DecidableEq

/-- The lightning anchor contributed by a stick (src/main.cpp:541-544):
its base position raised by its height. -/
def stickTop (s : Stick) : Vec3 := ⟨s.position.x, s.position.y + s.height, s.position.z⟩

/-- The loop body of `updateLightning` (src/main.cpp:539-547): one
`generateLightning` call per consecutive anchor pair, buffers concatenated. -/
def genChain (cfg : Config) (g : ℕ → ℕ) : List (Vec3 × Vec3) → ℕ → List ℚ × ℕ
  | [], i => ([], i)
  | p :: rest, i =>
    let t := generateLightning cfg g cfg.maxDepth p.1 p.2 cfg.displacement i
    let u := genChain cfg g rest t.2
    (t.1 ++ u.1, u.2)

/-- Embeds `updateLightning` (src/main.cpp:530-553).  With fewer than two sticks it
returns at once, keeping the previous buffer and uploading nothing; otherwise
it clears the buffer, regenerates between consecutive stick tops and uploads.
Result: (vertex buffer after the call, whether a GPU upload happened, rand
cursor). -/
def updateLightning (cfg : Config) (g : ℕ → ℕ) (prev : List ℚ)
    (sticks : List Stick) (i : ℕ) : List ℚ × Bool × ℕ :=
  if sticks.length < 2 then (prev, false, i)
  else
    let pairs := (sticks.zip sticks.tail).map fun p => (stickTop p.1, stickTop p.2)
    let t := genChain cfg g pairs i
    (t.1, true, t.2)

/-! ## Particle emitter/simulator (src/main.cpp:795-849) -/

/-- A particle (src/main.cpp:83-91).  `emitParticlesAlongLightning` never
writes `size`; the embedding records 0 for that indeterminate field. -/
structure Particle where
  position : Vec3
  velocity : Vec3
  color : Vec3
  size : ℚ
  life : ℚ
  maxLife : ℚ
deriving DecidableEq

/-- The loop of `emitParticlesAlongLightning` (src/main.cpp:795-825) over the
vertex buffer in triples: skip when `rand() % 3 != 0`, otherwise spawn one
particle with random outward velocity, color variation in [0.85, 1.0] and
`maxLife = particleLifetime * (0.5 + uniform)`, `life = maxLife`.  (A trailing
fragment of fewer than 3 floats would be read out of bounds by the source;
the buffer stride invariant keeps it unreachable, and the embedding stops.) -/
def emitParticlesAlongLightning (cfg : Config) (g : ℕ → ℕ) :
    List ℚ → ℕ → List Particle × ℕ
  | x :: y :: z :: rest, i =>
    if randDraw g i % 3 ≠ 0 then
      emitParticlesAlongLightning cfg g rest (i + 1)
    else
      let randomAngle := randFloat g (i + 1) * 2 * (314159 / 100000 : ℚ)
      let randomSpeed := (1 / 50 : ℚ) + randFloat g (i + 2) * (1 / 20)
      let vel : Vec3 :=
        ⟨cfg.cosF randomAngle * randomSpeed,
         cfg.sinF randomAngle * randomSpeed,
         (randFloat g (i + 3) - 1 / 2) * (1 / 20)⟩
      let colorVariation := (17 / 20 : ℚ) + randFloat g (i + 4) * (3 / 20)
      let ml := cfg.particleLifetime * (1 / 2 + randFloat g (i + 5))
      let p : Particle :=
        { position := ⟨x, y, z⟩
          velocity := vel
          color := cfg.lightningColor * colorVariation
          size := 0
          life := ml
          maxLife := ml }
      let t := emitParticlesAlongLightning cfg g rest (i + 6)
      (p :: t.1, t.2)
  | _, i => ([], i)

/-- Embeds `updateParticles` (src/main.cpp:827-849): decrement `life` by `deltaTime`,
erase when it drops to 0 or below, otherwise integrate position, shrink size
and recompute the color as the current global color times `life / maxLife`. -/
def updateParticles (color : Vec3) (dt : ℚ) : List Particle → List Particle
  | [] => []
  | p :: ps =>
    let life' := p.life - dt
    if life' ≤ 0 then updateParticles color dt ps
    else
      { p with
          position := p.position + p.velocity * dt
          size := p.size - dt * (1 / 2)
          life := life'
          color := color * (life' / p.maxLife) } :: updateParticles color dt ps

/-- The per-frame emission timer of `main` (src/main.cpp:404-411): accumulate
`deltaTime`; when the accumulator strictly exceeds `particleEmissionRate`,
call `emitParticlesAlongLightning` once and reset the accumulator to 0.
Result: (accumulator after the frame, whether the emission call was made). -/
def particleTimerStep (emissionRate timer dt : ℚ) : ℚ × Bool :=
  let t := timer + dt
  if t > emissionRate then (0, true) else (t, false)

/-! ## The decoupled branch policy described by the spec -/

/-- Modelled from the spec: the pure midpoint-displacement pass of §4.1 /
§4.2(b), with no branch decoration during the recursion (this matches the
`generateLightning` of the repository's earlier revision kept outside src/,
src/unnamed/part_000:377-399). -/
def generateMainBolt (g : ℕ → ℕ) : ℕ → Vec3 → Vec3 → ℚ → ℕ → List ℚ × ℕ
  | 0, a, b, _disp, i => (segFloats a b, i)
  | d + 1, a, b, disp, i =>
    let mid0 := (a + b) * (1 / 2 : ℚ)
    let mid : Vec3 :=
      ⟨mid0.x,
       mid0.y + (randFloat g i - 1 / 2) * disp,
       mid0.z + (randFloat g (i + 1) - 1 / 2) * disp⟩
    let t := generateMainBolt g d a mid (disp * (1 / 2)) (i + 2)
    let u := generateMainBolt g d mid b (disp * (1 / 2)) t.2
    (t.1 ++ u.1, u.2)

/-- Split a flat float list into consecutive 6-float segments
(src/unnamed/part_000:426-438). -/
def collectSegments : List ℚ → List (Vec3 × Vec3)
  | x1 :: y1 :: z1 :: x2 :: y2 :: z2 :: rest =>
    (⟨x1, y1, z1⟩, ⟨x2, y2, z2⟩) :: collectSegments rest
  | _ => []

/-- Modelled from the spec: the per-stored-segment branch decoration of
§4.2(b) (matching src/unnamed/part_000:443-453): one Bernoulli trial
`r < branchChance` per stored main segment; on success expand axiom `F` and
interpret it anchored at the segment's midpoint along its direction. -/
def decorateSegments (cfg : Config) (g : ℕ → ℕ) : List (Vec3 × Vec3) → ℕ → List ℚ × ℕ
  | [], i => ([], i)
  | seg :: rest, i =>
    let r := randFloat g i
    if r < cfg.branchChance then
      let origin := (seg.1 + seg.2) * (1 / 2 : ℚ)
      let dir := seg.2 - seg.1
      let t := generateLSystem cfg g cfg.lsystemIterations ['F'] (i + 1)
      let u := interpretLSystem cfg g t.1 origin (cfg.nrm dir) t.2
      let v := decorateSegments cfg g rest u.2
      (u.1 ++ v.1, v.2)
    else
      decorateSegments cfg g rest (i + 1)

/-- Modelled from the spec: the decoupled regeneration procedure that claim
C2 ascribes to the code — first the full main bolt, its segments collected
into a list, then one branch trial per stored segment anchored at the
midpoint (spec §4.2 interpretation (b); src/unnamed/part_000:401-459). -/
def updateLightningSpec (cfg : Config) (g : ℕ → ℕ) (sticks : List Stick) (i : ℕ) :
    List ℚ × ℕ :=
  if sticks.length < 2 then ([], i)
  else
    let pairs := (sticks.zip sticks.tail).map fun p => (stickTop p.1, stickTop p.2)
    let bolt := boltChain pairs i
    let branches := decorateSegments cfg g (collectSegments bolt.1) bolt.2
    (bolt.1 ++ branches.1, branches.2)
where
  boltChain : List (Vec3 × Vec3) → ℕ → List ℚ × ℕ
    | [], i => ([], i)
    | p :: rest, i =>
      let t := generateMainBolt g cfg.maxDepth p.1 p.2 cfg.displacement i
      let u := boltChain rest t.2
      (t.1 ++ u.1, u.2)

/-! ## Helper facts: the randomness source -/

lemma randDraw_le (g : ℕ → ℕ) (i : ℕ) : randDraw g i ≤ RAND_MAX :=
  Nat.lt_succ_iff.mp (Nat.mod_lt (g i) (by norm_num [RAND_MAX]))

lemma randFloat_nonneg (g : ℕ → ℕ) (i : ℕ) : 0 ≤ randFloat g i := by
  unfold randFloat
  positivity

lemma randFloat_le_one (g : ℕ → ℕ) (i : ℕ) : randFloat g i ≤ 1 := by
  unfold randFloat
  rw [div_le_one (by norm_num [RAND_MAX])]
  exact_mod_cast randDraw_le g i

/-! ## Helper facts: the grammar engine -/

/-- Number of draw symbols `F` in a grammar word. -/
def countF (w : List Char) : ℕ := w.count 'F'

lemma countF_cons (c : Char) (w : List Char) :
    countF (c :: w) = (if c = 'F' then 1 else 0) + countF w := by
  by_cases h : c = 'F' <;>
    simp [countF, List.count_cons, h, Nat.add_comm]

lemma lsysStep_countF_pos (cfg : Config) (g : ℕ → ℕ) :
    ∀ w i, 0 < countF w → 0 < countF (lsysStep cfg g w i).1 := by
  intro w
  induction w with
  | nil => intro i h; simp [countF] at h
  | cons c rest ih =>
    intro i h
    by_cases hc : c = 'F'
    · subst hc
      simp only [lsysStep, if_pos rfl]
      split_ifs <;> simp [countF, List.count_append]
    · rw [countF_cons, if_neg hc, Nat.zero_add] at h
      simp only [lsysStep, if_neg hc]
      rw [countF_cons, if_neg hc, Nat.zero_add]
      exact ih i h

lemma generateLSystem_countF_pos (cfg : Config) (g : ℕ → ℕ) :
    ∀ n w i, 0 < countF w → 0 < countF (generateLSystem cfg g n w i).1 := by
  intro n
  induction n with
  | zero => intro w i h; simpa [generateLSystem] using h
  | succ n ih =>
    intro w i h
    simp only [generateLSystem]
    exact ih _ _ (lsysStep_countF_pos cfg g w i h)

/-! ## Helper facts: the turtle walker -/

lemma stepChar_F (cfg : Config) (g : ℕ → ℕ) (s : TState) :
    stepChar cfg g s 'F' =
      { s with
          out := s.out ++ [s.pos.x, s.pos.y, s.pos.z,
            (s.pos + s.dir * cfg.segmentLength).x,
            (s.pos + s.dir * cfg.segmentLength).y,
            (s.pos + s.dir * cfg.segmentLength).z]
          pos := s.pos + s.dir * cfg.segmentLength } := rfl

lemma stepChar_push (cfg : Config) (g : ℕ → ℕ) (s : TState) :
    stepChar cfg g s '[' = { s with stack := (s.pos, s.dir) :: s.stack } := rfl

lemma stepChar_pop (cfg : Config) (g : ℕ → ℕ) (s : TState) :
    stepChar cfg g s ']' =
      (match s.stack with
       | [] => s
       | (p, d) :: rest => { s with pos := p, dir := d, stack := rest }) := rfl

lemma stepChar_pop_cons (cfg : Config) (g : ℕ → ℕ) (s : TState) (p d : Vec3)
    (rest : List (Vec3 × Vec3)) (h : s.stack = (p, d) :: rest) :
    stepChar cfg g s ']' = { s with pos := p, dir := d, stack := rest } := by
  rw [stepChar_pop, h]

lemma runChars_append (cfg : Config) (g : ℕ → ℕ) (s : TState) (w1 w2 : List Char) :
    runChars cfg g s (w1 ++ w2) = runChars cfg g (runChars cfg g s w1) w2 := by
  induction w1 generalizing s with
  | nil => rfl
  | cons c cs ih => simp only [List.cons_append, runChars]; exact ih _

lemma stepChar_out_append (cfg : Config) (g : ℕ → ℕ) (s : TState) (c : Char) :
    ∃ t, (stepChar cfg g s c).out = s.out ++ t := by
  unfold stepChar
  split_ifs
  · exact ⟨_, rfl⟩
  · exact ⟨[], by simp⟩
  · exact ⟨[], by simp⟩
  · exact ⟨[], by simp⟩
  · rcases s.stack with _ | ⟨⟨p, d⟩, rest⟩
    · exact ⟨[], by simp⟩
    · exact ⟨[], by simp⟩
  · exact ⟨[], by simp⟩

lemma runChars_out_append (cfg : Config) (g : ℕ → ℕ) :
    ∀ w s, ∃ t, (runChars cfg g s w).out = s.out ++ t := by
  intro w
  induction w with
  | nil => intro s; exact ⟨[], by simp [runChars]⟩
  | cons c cs ih =>
    intro s
    obtain ⟨t1, h1⟩ := stepChar_out_append cfg g s c
    obtain ⟨t2, h2⟩ := ih (stepChar cfg g s c)
    exact ⟨t1 ++ t2, by simp only [runChars]; rw [h2, h1, List.append_assoc]⟩

lemma stepChar_out_length (cfg : Config) (g : ℕ → ℕ) (s : TState) (c : Char) :
    (stepChar cfg g s c).out.length = s.out.length + (if c = 'F' then 6 else 0) := by
  unfold stepChar
  split_ifs with h1 h2 h3 h4 h5
  · simp
  · simp
  · simp
  · simp
  · rcases s.stack with _ | ⟨⟨p, d⟩, rest⟩
    · simp
    · simp
  · simp

lemma runChars_out_length (cfg : Config) (g : ℕ → ℕ) :
    ∀ w s, ((runChars cfg g s w).out).length = s.out.length + 6 * countF w := by
  intro w
  induction w with
  | nil => intro s; simp [runChars, countF]
  | cons c cs ih =>
    intro s
    simp only [runChars]
    rw [ih, stepChar_out_length, countF_cons]
    by_cases h : c = 'F'
    · simp [h]; ring
    · simp [h]

lemma interpretLSystem_length (cfg : Config) (g : ℕ → ℕ) (w : List Char)
    (o bd : Vec3) (i : ℕ) :
    (interpretLSystem cfg g w o bd i).1.length = 6 * countF w := by
  show ((runChars cfg g _ w).out).length = 6 * countF w
  rw [runChars_out_length]
  simp


lemma stepChar_nonF (cfg : Config) (g : ℕ → ℕ) (s : TState) (c : Char) (hc : c ≠ 'F')
    (hstk : ∀ pr ∈ s.stack, pr.1 = s.pos) :
    (stepChar cfg g s c).out = s.out ∧ (stepChar cfg g s c).pos = s.pos ∧
      ∀ pr ∈ (stepChar cfg g s c).stack, pr.1 = s.pos := by
  unfold stepChar
  rw [if_neg hc]
  split_ifs
  · exact ⟨rfl, rfl, hstk⟩
  · exact ⟨rfl, rfl, hstk⟩
  · refine ⟨rfl, rfl, ?_⟩
    intro pr hpr
    rcases List.mem_cons.mp hpr with h | h
    · rw [h]
    · exact hstk pr h
  · rcases hs : s.stack with _ | ⟨⟨p, d⟩, rest⟩
    · exact ⟨rfl, rfl, hstk⟩
    · have hp : p = s.pos := hstk (p, d) (by rw [hs]; exact List.mem_cons_self _ _)
      refine ⟨rfl, hp, ?_⟩
      intro pr hpr
      exact hstk pr (by rw [hs]; exact List.mem_cons_of_mem _ hpr)
  · exact ⟨rfl, rfl, hstk⟩

/-- While no `F` has been executed the turtle has not moved: the first vertex
a walk ever appends is the position the walk started from. -/
lemma runChars_anchor (cfg : Config) (g : ℕ → ℕ) :
    ∀ w s, s.out = [] → (∀ pr ∈ s.stack, pr.1 = s.pos) →
      (runChars cfg g s w).out = [] ∨
      (runChars cfg g s w).out.take 3 = [s.pos.x, s.pos.y, s.pos.z] := by
  intro w
  induction w with
  | nil => intro s h1 _; left; simpa [runChars] using h1
  | cons c cs ih =>
    intro s h1 h2
    simp only [runChars]
    by_cases hF : c = 'F'
    · right
      subst hF
      obtain ⟨t, ht⟩ := runChars_out_append cfg g cs (stepChar cfg g s 'F')
      rw [ht]
      have hr0 : (stepChar cfg g s 'F').out
          = s.pos.x :: s.pos.y :: s.pos.z ::
            [(s.pos + s.dir * cfg.segmentLength).x,
             (s.pos + s.dir * cfg.segmentLength).y,
             (s.pos + s.dir * cfg.segmentLength).z] := by
        rw [stepChar_F, h1]
        rfl
      rw [hr0]
      rfl
    · obtain ⟨ho, hp, hs⟩ := stepChar_nonF cfg g s c hF h2
      have hstep : ∀ pr ∈ (stepChar cfg g s c).stack, pr.1 = (stepChar cfg g s c).pos := by
        intro pr hpr
        rw [hp]
        exact hs pr hpr
      rcases ih (stepChar cfg g s c) (by rw [ho, h1]) hstep with h | h
      · left; exact h
      · right; rw [h, hp]

/-- Well-bracketed grammar words: arbitrary non-bracket symbols interleaved
with properly nested `[` `]` pairs. -/
inductive BalancedWord : List Char → Prop
  | nil : BalancedWord []
  | sym {c : Char} {w : List Char} :
      c ≠ '[' → c ≠ ']' → BalancedWord w → BalancedWord (c :: w)
  | grp {u w : List Char} :
      BalancedWord u → BalancedWord w → BalancedWord ('[' :: u ++ ']' :: w)

lemma stepChar_stack_nonbracket (cfg : Config) (g : ℕ → ℕ) (s : TState) (c : Char)
    (h1 : c ≠ '[') (h2 : c ≠ ']') :
    (stepChar cfg g s c).stack = s.stack := by
  unfold stepChar
  split_ifs <;> rfl

/-- Processing a well-bracketed word returns the saved-state stack to exactly
what it was, whatever the word's `F`, `+`, `-` symbols and random draws do. -/
lemma balanced_stack (cfg : Config) (g : ℕ → ℕ) :
    ∀ {w}, BalancedWord w → ∀ s, (runChars cfg g s w).stack = s.stack := by
  intro w hw
  induction hw with
  | nil => intro s; rfl
  | sym h1 h2 _ ih =>
    intro s
    simp only [runChars]
    rw [ih, stepChar_stack_nonbracket cfg g s _ h1 h2]
  | @grp u v _ _ ihu ihw =>
    intro s
    rw [runChars_append]
    have e1 : runChars cfg g s ('[' :: u) = runChars cfg g (stepChar cfg g s '[') u := rfl
    rw [e1]
    have e2 : runChars cfg g (runChars cfg g (stepChar cfg g s '[') u) (']' :: v)
        = runChars cfg g (stepChar cfg g (runChars cfg g (stepChar cfg g s '[') u) ']') v := rfl
    rw [e2, ihw]
    have hS1 : (runChars cfg g (stepChar cfg g s '[') u).stack
        = (s.pos, s.dir) :: s.stack := by
      rw [ihu, stepChar_push]
    rw [stepChar_pop_cons cfg g _ s.pos s.dir s.stack hS1]

/-! ## Concrete fixtures for closed evaluations -/

/-- A concrete configuration for closed evaluations (src/main.cpp default
globals, with `lsystemIterations = 0` to keep words small).  The
uninterpreted collaborators are instantiated by maps whose values the
evaluated properties do not depend on. -/
def cfgBase : Config where
  maxDepth := 1
  displacement := 0
  branchChance := 1 / 4
  lsystemIterations := 0
  segmentLength := 1 / 10
  angleVariance := 45
  probFF := 1 / 2
  probPlus := 3 / 10
  probMinus := 1 / 5
  lightningColor := ⟨1, 1, 1⟩
  particleLifetime := 1
  particleEmissionRate := 1 / 20
  nrm := id
  rotZ := fun v _ => v
  cosF := fun _ => 1
  sinF := fun _ => 0

/-- The rand stream that always returns 0. -/
def gZero : ℕ → ℕ := fun _ => 0

/-- The rand stream that always returns `RAND_MAX`. -/
def gMax : ℕ → ℕ := fun _ => RAND_MAX

/-- A concrete turtle state with an empty saved-state stack. -/
def tsW : TState := ⟨⟨0, 0, 0⟩, ⟨1, 0, 0⟩, [], [], 0⟩

/-- Two concrete sticks whose tops are (0,0,0) and (1,0,0). -/
def sticksCE : List Stick :=
  [⟨⟨0, -1, 0⟩, 1, ⟨1, 1, 1⟩⟩, ⟨⟨1, -1, 0⟩, 1, ⟨1, 1, 1⟩⟩]

/-! ## C4: turtle push/pop round-trip -/

/-- C4: for every well-bracketed group interior `u` and every turtle state
(any position, direction, stack, output and rand cursor), after the walker of
`interpretLSystem` processes the fully-enclosed group `'[' u ']'` its current
position and direction (and saved-state stack) equal their values immediately
before the `'['`, regardless of the `F`, `+`, `-` symbols and random angles
inside the group. -/
theorem turtle_pushpop_roundtrip (cfg : Config) (g : ℕ → ℕ) (u : List Char)
    (s : TState) (hu : BalancedWord u) :
    (runChars cfg g s ('[' :: u ++ [']'])).pos = s.pos ∧
    (runChars cfg g s ('[' :: u ++ [']'])).dir = s.dir ∧
    (runChars cfg g s ('[' :: u ++ [']'])).stack = s.stack := by
  have e : runChars cfg g s (('[' :: u) ++ [']'])
      = stepChar cfg g (runChars cfg g (stepChar cfg g s '[') u) ']' := by
    rw [runChars_append]
    rfl
  have hS1 : (runChars cfg g (stepChar cfg g s '[') u).stack
      = (s.pos, s.dir) :: s.stack := by
    rw [balanced_stack cfg g hu, stepChar_push]
  rw [e, stepChar_pop_cons cfg g _ s.pos s.dir s.stack hS1]
  exact ⟨rfl, rfl, rfl⟩

/-- Witness for C4 at the concrete group `[F]` and a concrete start state. -/
theorem turtle_pushpop_roundtrip_witness :
    (runChars cfgBase gZero tsW ('[' :: ['F'] ++ [']'])).pos = tsW.pos ∧
    (runChars cfgBase gZero tsW ('[' :: ['F'] ++ [']'])).dir = tsW.dir ∧
    (runChars cfgBase gZero tsW ('[' :: ['F'] ++ [']'])).stack = tsW.stack :=
  turtle_pushpop_roundtrip cfgBase gZero ['F'] tsW
    (BalancedWord.sym (by decide) (by decide) BalancedWord.nil)

/-! ## C8: popping an empty stack is a no-op -/

/-- C8: interpreting `']'` with an empty saved-state stack leaves the whole
turtle state (position, direction, stack, emitted vertices, rand cursor)
unchanged, and the walk simply continues with the rest of the word; the
symbol is silently ignored, never a fault. -/
theorem pop_empty_noop (cfg : Config) (g : ℕ → ℕ) (s : TState) (w : List Char)
    (h : s.stack = []) :
    stepChar cfg g s ']' = s ∧
    runChars cfg g s (']' :: w) = runChars cfg g s w := by
  have h1 : stepChar cfg g s ']' = s := by
    rw [stepChar_pop, h]
  exact ⟨h1, by simp only [runChars, h1]⟩

/-- Witness for C8 at a concrete empty-stack state. -/
theorem pop_empty_noop_witness :
    tsW.stack = [] ∧ stepChar cfgBase gZero tsW ']' = tsW ∧
    runChars cfgBase gZero tsW (']' :: ['F']) = runChars cfgBase gZero tsW ['F'] := by
  obtain ⟨h1, h2⟩ := pop_empty_noop cfgBase gZero tsW ['F'] rfl
  exact ⟨rfl, h1, h2⟩

/-! ## C9: range of the shared uniform draws -/

/-- C9 counterexample: the uniform draw `float(rand())/float(RAND_MAX)`
attains the value 1 exactly (when `rand()` returns `RAND_MAX`), so the draws
do not lie in the half-open interval [0,1). -/
theorem rand_unit_interval_cex :
    randFloat gMax 0 = 1 ∧ ¬ randFloat gMax 0 < 1 := by
  constructor
  · show ((RAND_MAX % (RAND_MAX + 1) : ℕ) : ℚ) / (RAND_MAX : ℚ) = 1
    rw [Nat.mod_eq_of_lt (Nat.lt_succ_self _)]
    rw [div_self (by norm_num [RAND_MAX])]
  · intro h
    rw [show randFloat gMax 0
        = ((RAND_MAX % (RAND_MAX + 1) : ℕ) : ℚ) / (RAND_MAX : ℚ) from rfl,
      Nat.mod_eq_of_lt (Nat.lt_succ_self _),
      div_self (by norm_num [RAND_MAX])] at h
    exact lt_irrefl 1 h

/-- C9 (amended): every draw of the shared randomness source lies in the
closed interval [0,1]: `0 ≤ r` and `r ≤ 1`, with the upper bound attained
when `rand()` returns `RAND_MAX`. -/
theorem rand_unit_interval (g : ℕ → ℕ) (i : ℕ) :
    0 ≤ randFloat g i ∧ randFloat g i ≤ 1 :=
  ⟨randFloat_nonneg g i, randFloat_le_one g i⟩

/-! ## Decomposition of the fractal recursion into leaf blocks -/

lemma interpret_branch_facts (cfg : Config) (g : ℕ → ℕ) (w : List Char)
    (hw : 0 < countF w) (a bd : Vec3) (j : ℕ) :
    (interpretLSystem cfg g w a bd j).1 ≠ [] ∧
    6 ∣ (interpretLSystem cfg g w a bd j).1.length ∧
    (interpretLSystem cfg g w a bd j).1.take 3 = [a.x, a.y, a.z] := by
  have hlen : (interpretLSystem cfg g w a bd j).1.length = 6 * countF w :=
    interpretLSystem_length cfg g w a bd j
  have hpos : 0 < (interpretLSystem cfg g w a bd j).1.length := by
    rw [hlen]
    exact Nat.mul_pos (by norm_num) hw
  refine ⟨List.ne_nil_of_length_pos hpos, ⟨countF w, hlen⟩, ?_⟩
  have hrun := runChars_anchor cfg g w
    ⟨a, cfg.nrm bd, [], [], j⟩ rfl (by intro pr hpr; cases hpr)
  rcases hrun with h | h
  · exfalso
    have : (interpretLSystem cfg g w a bd j).1 = [] := h
    rw [this] at hpos
    exact lt_irrefl 0 hpos
  · exact h

/-- Case analysis of a depth-0 `generateLightning` call: the leaf segment's
own 6 floats come first; one branch draw `r` decides whether L-system
decoration follows, and when it does, the decoration is nonempty, a multiple
of 6 floats, and starts at the leaf's start point `a`. -/
lemma generateLightning_zero_cases (cfg : Config) (g : ℕ → ℕ) (a b : Vec3)
    (disp : ℚ) (i : ℕ) :
    (cfg.branchChance < randFloat g i →
      (generateLightning cfg g 0 a b disp i).1 = segFloats a b) ∧
    (¬ cfg.branchChance < randFloat g i →
      ∃ bv : List ℚ, (generateLightning cfg g 0 a b disp i).1 = segFloats a b ++ bv ∧
        bv ≠ [] ∧ 6 ∣ bv.length ∧ bv.take 3 = [a.x, a.y, a.z]) := by
  constructor
  · intro h
    simp only [generateLightning]
    rw [if_pos h]
  · intro h
    simp only [generateLightning]
    rw [if_neg h]
    have hcount : (0 : ℕ) < countF ['[', '+', 'F', ']'] := by decide
    have hcount2 : (0 : ℕ) < countF ['[', '-', 'F', ']'] := by decide
    split_ifs with h2
    · exact ⟨_, rfl,
        interpret_branch_facts cfg g _
          (generateLSystem_countF_pos cfg g cfg.lsystemIterations _ (i + 1) hcount)
          a (cfg.nrm (b - a)) _⟩
    · exact ⟨_, rfl,
        interpret_branch_facts cfg g _
          (generateLSystem_countF_pos cfg g cfg.lsystemIterations _ (i + 1) hcount2)
          a (cfg.nrm (b - a)) _⟩

/-- A depth-0 call ignores its displacement argument. -/
lemma generateLightning_zero_disp (cfg : Config) (g : ℕ → ℕ) (a b : Vec3)
    (disp disp2 : ℚ) (i : ℕ) :
    generateLightning cfg g 0 a b disp i = generateLightning cfg g 0 a b disp2 i := rfl

/-- Leaf decomposition of the fractal recursion: the output at depth `d` is
the concatenation of exactly `2 ^ d` leaf blocks, each of which is a depth-0
call of `generateLightning` at that leaf's endpoints and recorded rand
cursor. -/
lemma generateLightning_decomp (cfg : Config) (g : ℕ → ℕ) :
    ∀ d a b disp i, ∃ leaves : List (Vec3 × Vec3 × ℕ),
      leaves.length = 2 ^ d ∧
      (generateLightning cfg g d a b disp i).1 =
        (leaves.map fun t => (generateLightning cfg g 0 t.1 t.2.1 0 t.2.2).1).flatten := by
  intro d
  induction d with
  | zero =>
    intro a b disp i
    refine ⟨[(a, b, i)], rfl, ?_⟩
    simp only [List.map_cons, List.map_nil, List.flatten_cons, List.flatten_nil, List.append_nil]
    rw [generateLightning_zero_disp cfg g a b disp 0 i]
  | succ d ih =>
    intro a b disp i
    set mid : Vec3 :=
      ⟨((a + b) * (1 / 2 : ℚ)).x,
       ((a + b) * (1 / 2 : ℚ)).y + (randFloat g i - 1 / 2) * disp,
       ((a + b) * (1 / 2 : ℚ)).z + (randFloat g (i + 1) - 1 / 2) * disp⟩ with hmid
    have e : (generateLightning cfg g (d + 1) a b disp i).1
        = (generateLightning cfg g d a mid (disp * (1 / 2)) (i + 2)).1 ++
          (generateLightning cfg g d mid b (disp * (1 / 2))
            (generateLightning cfg g d a mid (disp * (1 / 2)) (i + 2)).2).1 := rfl
    obtain ⟨l1, hl1, he1⟩ := ih a mid (disp * (1 / 2)) (i + 2)
    obtain ⟨l2, hl2, he2⟩ := ih mid b (disp * (1 / 2))
      (generateLightning cfg g d a mid (disp * (1 / 2)) (i + 2)).2
    refine ⟨l1 ++ l2, ?_, ?_⟩
    · rw [List.length_append, hl1, hl2, pow_succ]
      ring
    · rw [e, he1, he2, List.map_append]
      exact (List.flatten_append _ _).symm

/-- The jittered midpoint of the recursive case (src/main.cpp:522-524). -/
def genMid (g : ℕ → ℕ) (a b : Vec3) (disp : ℚ) (i : ℕ) : Vec3 :=
  ⟨((a + b) * (1 / 2 : ℚ)).x,
   ((a + b) * (1 / 2 : ℚ)).y + (randFloat g i - 1 / 2) * disp,
   ((a + b) * (1 / 2 : ℚ)).z + (randFloat g (i + 1) - 1 / 2) * disp⟩

lemma generateLightning_succ_out (cfg : Config) (g : ℕ → ℕ) (d : ℕ) (a b : Vec3)
    (disp : ℚ) (i : ℕ) :
    (generateLightning cfg g (d + 1) a b disp i).1
      = (generateLightning cfg g d a (genMid g a b disp i) (disp * (1 / 2)) (i + 2)).1 ++
        (generateLightning cfg g d (genMid g a b disp i) b (disp * (1 / 2))
          (generateLightning cfg g d a (genMid g a b disp i) (disp * (1 / 2)) (i + 2)).2).1 := rfl

lemma generateLightning_length_ge (cfg : Config) (g : ℕ → ℕ) :
    ∀ d a b disp i, 6 * 2 ^ d ≤ (generateLightning cfg g d a b disp i).1.length := by
  intro d
  induction d with
  | zero =>
    intro a b disp i
    obtain ⟨h1, h2⟩ := generateLightning_zero_cases cfg g a b disp i
    by_cases h : cfg.branchChance < randFloat g i
    · rw [h1 h]
      simp [segFloats]
    · obtain ⟨bv, he, _, _, _⟩ := h2 h
      rw [he, List.length_append]
      simp [segFloats]
  | succ d ih =>
    intro a b disp i
    rw [generateLightning_succ_out, List.length_append]
    have : 6 * 2 ^ (d + 1) = 6 * 2 ^ d + 6 * 2 ^ d := by
      rw [pow_succ]
      ring
    rw [this]
    exact Nat.add_le_add (ih _ _ _ _) (ih _ _ _ _)

lemma generateLightning_length_nobranch (cfg : Config) (g : ℕ → ℕ)
    (hnb : ∀ j, cfg.branchChance < randFloat g j) :
    ∀ d a b disp i, (generateLightning cfg g d a b disp i).1.length = 6 * 2 ^ d := by
  intro d
  induction d with
  | zero =>
    intro a b disp i
    rw [(generateLightning_zero_cases cfg g a b disp i).1 (hnb i)]
    rfl
  | succ d ih =>
    intro a b disp i
    rw [generateLightning_succ_out, List.length_append, ih, ih, pow_succ]
    ring

lemma generateLightning_length_dvd (cfg : Config) (g : ℕ → ℕ) :
    ∀ d a b disp i, 6 ∣ (generateLightning cfg g d a b disp i).1.length := by
  intro d
  induction d with
  | zero =>
    intro a b disp i
    by_cases h : cfg.branchChance < randFloat g i
    · rw [(generateLightning_zero_cases cfg g a b disp i).1 h]
      exact ⟨1, rfl⟩
    · obtain ⟨bv, he, _, hdvd, _⟩ := (generateLightning_zero_cases cfg g a b disp i).2 h
      rw [he, List.length_append]
      exact dvd_add ⟨1, rfl⟩ hdvd
  | succ d ih =>
    intro a b disp i
    rw [generateLightning_succ_out, List.length_append]
    exact dvd_add (ih _ _ _ _) (ih _ _ _ _)

lemma genChain_length_dvd (cfg : Config) (g : ℕ → ℕ) :
    ∀ ps i, 6 ∣ (genChain cfg g ps i).1.length := by
  intro ps
  induction ps with
  | nil => intro i; exact ⟨0, rfl⟩
  | cons p rest ih =>
    intro i
    simp only [genChain]
    rw [List.length_append]
    exact dvd_add (generateLightning_length_dvd cfg g _ _ _ _ _) (ih _)

/-! ## C1: leaf segment and vertex counts of the fractal pass -/

/-- C1 (amended): for every depth `d` and anchor pair, `generateLightning`
produces exactly `2 ^ d` leaf blocks, each beginning with that leaf segment's
two endpoint vertices, so it appends at least `2 ^ (d + 1)` vertices
(`6 * 2 ^ d` floats); the count is exactly `2 ^ (d + 1)` vertices when every
branch draw fails (`r > branchChance`), but the depth-0 base case also rolls
the branch draw and can append further L-system branch floats, so the total
is not `2 ^ (d + 1)` vertices in general. -/
theorem fractal_leaf_count (cfg : Config) (g : ℕ → ℕ) (d : ℕ) (a b : Vec3)
    (disp : ℚ) (i : ℕ) :
    (∃ leaves : List (Vec3 × Vec3 × ℕ), leaves.length = 2 ^ d ∧
      (generateLightning cfg g d a b disp i).1 =
        (leaves.map fun t => (generateLightning cfg g 0 t.1 t.2.1 0 t.2.2).1).flatten) ∧
    6 * 2 ^ d ≤ (generateLightning cfg g d a b disp i).1.length ∧
    ((∀ j, cfg.branchChance < randFloat g j) →
      (generateLightning cfg g d a b disp i).1.length = 6 * 2 ^ d) :=
  ⟨generateLightning_decomp cfg g d a b disp i,
   generateLightning_length_ge cfg g d a b disp i,
   fun hnb => generateLightning_length_nobranch cfg g hnb d a b disp i⟩

/-- C1 counterexample: at depth 0 with the default configuration and a rand
stream of zeros, the branch draw succeeds and `generateLightning` appends 12
floats, not the `2 * 3 * 2 ^ 0 = 6` floats the claim states. -/
theorem fractal_leaf_count_cex :
    (generateLightning cfgBase gZero 0 ⟨0, 0, 0⟩ ⟨1, 0, 0⟩ 0 0).1.length = 12 ∧
    (12 : ℕ) ≠ 2 * 3 * 2 ^ 0 := by
  refine ⟨?_, ?_⟩ <;> with_unfolding_all decide

/-- A configuration whose branch chance no draw can reach. -/
def cfgNB : Config := { cfgBase with branchChance := -1 }

/-- Witness for C1: with an unreachable branch chance every draw fails, and
the depth-2 output length is exactly `6 * 2 ^ 2`. -/
theorem fractal_leaf_count_witness :
    (∀ j, cfgNB.branchChance < randFloat gZero j) ∧
    (generateLightning cfgNB gZero 2 ⟨0, 0, 0⟩ ⟨1, 0, 0⟩ 0 0).1.length = 6 * 2 ^ 2 := by
  have h : ∀ j, cfgNB.branchChance < randFloat gZero j := fun j =>
    lt_of_lt_of_le (show cfgNB.branchChance < 0 by norm_num [cfgNB, cfgBase])
      (randFloat_nonneg gZero j)
  exact ⟨h, (fractal_leaf_count cfgNB gZero 2 ⟨0, 0, 0⟩ ⟨1, 0, 0⟩ 0 0).2.2 h⟩

/-! ## C2: where and how branches are decided -/

/-- C2 (amended): branch generation is interleaved with path generation, not
decoupled: the output decomposes into the `2 ^ d` leaf blocks, and within
each leaf block the depth-0 base case makes one branch draw; `r >
branchChance` appends nothing further, and otherwise the expanded grammar
string is interpreted immediately — inside that leaf's block, before later
main-bolt segments — anchored at the leaf segment's start point (its first
three floats are the leaf's start), not at its midpoint. -/
theorem branch_policy_interleaved (cfg : Config) (g : ℕ → ℕ) (d : ℕ) (a b : Vec3)
    (disp : ℚ) (i : ℕ) :
    ∃ leaves : List (Vec3 × Vec3 × ℕ),
      leaves.length = 2 ^ d ∧
      (generateLightning cfg g d a b disp i).1 =
        (leaves.map fun t => (generateLightning cfg g 0 t.1 t.2.1 0 t.2.2).1).flatten ∧
      ∀ t ∈ leaves,
        (cfg.branchChance < randFloat g t.2.2 →
          (generateLightning cfg g 0 t.1 t.2.1 0 t.2.2).1 = segFloats t.1 t.2.1) ∧
        (¬ cfg.branchChance < randFloat g t.2.2 →
          ∃ bv, (generateLightning cfg g 0 t.1 t.2.1 0 t.2.2).1
              = segFloats t.1 t.2.1 ++ bv ∧
            bv ≠ [] ∧ 6 ∣ bv.length ∧ bv.take 3 = [t.1.x, t.1.y, t.1.z]) := by
  obtain ⟨leaves, h1, h2⟩ := generateLightning_decomp cfg g d a b disp i
  exact ⟨leaves, h1, h2, fun t _ => generateLightning_zero_cases cfg g t.1 t.2.1 0 t.2.2⟩

/-- C2 counterexample, at depth 1 with displacement 0 (so the undisplaced
main bolt is the same for every rand stream): the buffer written by the
code's `updateLightning` does not start with the full 12-float main bolt —
branch floats anchored at the first leaf's start are interleaved before the
second main segment — and the buffer differs from the output of the
decoupled midpoint-anchored procedure the claim describes. -/
theorem branch_policy_cex :
    ((updateLightning cfgBase gZero [] sticksCE 0).1).take 12 ≠
      segFloats ⟨0, 0, 0⟩ ⟨1 / 2, 0, 0⟩ ++ segFloats ⟨1 / 2, 0, 0⟩ ⟨1, 0, 0⟩ ∧
    (updateLightning cfgBase gZero [] sticksCE 0).1 ≠
      (updateLightningSpec cfgBase gZero sticksCE 0).1 := by
  refine ⟨?_, ?_⟩ <;> with_unfolding_all decide

/-- Witness for C2's decomposition at a concrete depth-1 input. -/
theorem branch_policy_interleaved_witness :
    ∃ leaves : List (Vec3 × Vec3 × ℕ), leaves.length = 2 ^ 1 ∧
      (generateLightning cfgBase gZero 1 ⟨0, 0, 0⟩ ⟨1, 0, 0⟩ 0 0).1 =
        (leaves.map fun t => (generateLightning cfgBase gZero 0 t.1 t.2.1 0 t.2.2).1).flatten := by
  obtain ⟨leaves, h1, h2, _⟩ :=
    branch_policy_interleaved cfgBase gZero 1 ⟨0, 0, 0⟩ ⟨1, 0, 0⟩ 0 0
  exact ⟨leaves, h1, h2⟩

/-! ## C3: buffer stride invariant -/

/-- C3: the vertex buffer left by `updateLightning` always has length a
multiple of 3 (it preserves a multiple-of-3 buffer on early return, and a
regeneration writes a multiple of 6), and no append operation breaks the
stride: every `generateLightning` call and every `interpretLSystem` call
appends a multiple of 6 floats (whole two-vertex segments), hence a multiple
of 3 — the buffer is never left partially written. -/
theorem buffer_stride_invariant :
    (∀ (cfg : Config) (g : ℕ → ℕ) (prev : List ℚ) (sticks : List Stick) (i : ℕ),
      3 ∣ prev.length → 3 ∣ ((updateLightning cfg g prev sticks i).1).length) ∧
    (∀ (cfg : Config) (g : ℕ → ℕ) d a b disp i,
      6 ∣ (generateLightning cfg g d a b disp i).1.length) ∧
    (∀ (cfg : Config) (g : ℕ → ℕ) w o bd i,
      6 ∣ (interpretLSystem cfg g w o bd i).1.length) := by
  refine ⟨?_, ?_, ?_⟩
  · intro cfg g prev sticks i hprev
    unfold updateLightning
    split_ifs with h
    · exact hprev
    · exact dvd_trans (by norm_num) (genChain_length_dvd cfg g _ i)
  · intro cfg g d a b disp i
    exact generateLightning_length_dvd cfg g d a b disp i
  · intro cfg g w o bd i
    exact ⟨countF w, interpretLSystem_length cfg g w o bd i⟩

/-- Witness for C3 at a concrete regeneration. -/
theorem buffer_stride_invariant_witness :
    3 ∣ ([] : List ℚ).length ∧
    3 ∣ ((updateLightning cfgBase gZero [] sticksCE 0).1).length :=
  ⟨⟨0, rfl⟩, buffer_stride_invariant.1 cfgBase gZero [] sticksCE 0 ⟨0, rfl⟩⟩

/-! ## C6: branchChance = 0 -/

/-- The default configuration with the branch chance set to 0. -/
def cfgChance0 : Config := { cfgBase with branchChance := 0 }

/-- C6 evaluated at the failing input: with `branchChance = 0` and the branch
draw returning 0 (`r = 0`), both `r > branchChance` and `r < probPlus /
probFF * branchChance` fail, so the final else arm still expands and
interprets a `[-F]` L-system branch — 6 branch floats are appended after the
leaf's own 6, contradicting the claim that no branch vertices are ever
appended. -/
theorem branch_chance_zero_bug :
    (generateLightning cfgChance0 gZero 0 ⟨0, 0, 0⟩ ⟨1, 0, 0⟩ 0 0).1 =
      segFloats ⟨0, 0, 0⟩ ⟨1, 0, 0⟩ ++ [0, 0, 0, 1 / 10, 0, 0] ∧
    6 < (generateLightning cfgChance0 gZero 0 ⟨0, 0, 0⟩ ⟨1, 0, 0⟩ 0 0).1.length := by
  refine ⟨?_, ?_⟩ <;> with_unfolding_all decide

/-! ## C5: particle lifecycle -/

lemma emit_mem (cfg : Config) (g : ℕ → ℕ) :
    ∀ (verts : List ℚ) (i : ℕ) (p : Particle),
      p ∈ (emitParticlesAlongLightning cfg g verts i).1 →
        p.life = p.maxLife ∧
        ∃ n : ℕ, n ≤ RAND_MAX ∧
          p.maxLife = cfg.particleLifetime * (1 / 2 + (n : ℚ) / (RAND_MAX : ℚ)) := by
  intro verts i
  induction verts, i using emitParticlesAlongLightning.induct cfg g with
  | case1 x y z rest i hskip ih =>
    intro p hp
    rw [show emitParticlesAlongLightning cfg g (x :: y :: z :: rest) i
        = emitParticlesAlongLightning cfg g rest (i + 1) by
      rw [emitParticlesAlongLightning, if_pos hskip]] at hp
    exact ih p hp
  | case2 x y z rest i hskip ih =>
    intro p hp
    simp only [emitParticlesAlongLightning, if_neg hskip, List.mem_cons] at hp
    rcases hp with hp | hp
    · subst hp
      exact ⟨rfl, randDraw g (i + 5), randDraw_le g (i + 5), rfl⟩
    · exact ih p hp
  | case3 l i hno =>
    intro p hp
    exfalso
    rcases l with _ | ⟨x, _ | ⟨y, _ | ⟨z, rest⟩⟩⟩
    · simp [emitParticlesAlongLightning] at hp
    · simp [emitParticlesAlongLightning] at hp
    · simp [emitParticlesAlongLightning] at hp
    · exact hno x y z rest rfl

lemma updateParticles_eq (color : Vec3) (dt : ℚ) :
    ∀ ps : List Particle,
      updateParticles color dt ps =
        (ps.filter fun p => decide (0 < p.life - dt)).map fun p =>
          { p with
              position := p.position + p.velocity * dt
              size := p.size - dt * (1 / 2)
              life := p.life - dt
              color := color * ((p.life - dt) / p.maxLife) } := by
  intro ps
  induction ps with
  | nil => rfl
  | cons p rest ih =>
    by_cases h : p.life - dt ≤ 0
    · have hd : decide (0 < p.life - dt) = false := by
        simp [not_lt.mpr h]
      simp only [updateParticles, if_pos h, List.filter_cons, hd, ih]
      simp
    · have hd : decide (0 < p.life - dt) = true := by
        simp [not_le.mp h]
      simp only [updateParticles, if_neg h, List.filter_cons, hd, ih]
      simp

/-- C5: every particle spawned by `emitParticlesAlongLightning` starts with
`life = maxLife` where `maxLife = particleLifetime * (0.5 + uniform)` for
some uniform draw; and one `updateParticles` tick is exactly: decrement every
life by `deltaTime`, remove a particle exactly when the decremented life is
≤ 0, and give every survivor color `globalColor * (life / maxLife)` (along
with the position/size updates). -/
theorem particle_lifecycle :
    (∀ (cfg : Config) (g : ℕ → ℕ) (verts : List ℚ) (i : ℕ) (p : Particle),
      p ∈ (emitParticlesAlongLightning cfg g verts i).1 →
        p.life = p.maxLife ∧
        ∃ n : ℕ, n ≤ RAND_MAX ∧
          p.maxLife = cfg.particleLifetime * (1 / 2 + (n : ℚ) / (RAND_MAX : ℚ))) ∧
    (∀ (color : Vec3) (dt : ℚ) (ps : List Particle),
      updateParticles color dt ps =
        (ps.filter fun p => decide (0 < p.life - dt)).map fun p =>
          { p with
              position := p.position + p.velocity * dt
              size := p.size - dt * (1 / 2)
              life := p.life - dt
              color := color * ((p.life - dt) / p.maxLife) }) :=
  ⟨fun cfg g verts i p hp => emit_mem cfg g verts i p hp,
   fun color dt ps => updateParticles_eq color dt ps⟩

/-- The particle spawned from vertex (0,0,0) by the all-zeros rand stream. -/
def pW : Particle :=
  ⟨⟨0, 0, 0⟩, ⟨1 / 50, 0, -1 / 40⟩, ⟨17 / 20, 17 / 20, 17 / 20⟩, 0, 1 / 2, 1 / 2⟩

/-- Witness for C5 at a concrete emission. -/
theorem particle_lifecycle_witness :
    pW ∈ (emitParticlesAlongLightning cfgBase gZero [0, 0, 0] 0).1 ∧
    pW.life = pW.maxLife ∧
    ∃ n : ℕ, n ≤ RAND_MAX ∧
      pW.maxLife = cfgBase.particleLifetime * (1 / 2 + (n : ℚ) / (RAND_MAX : ℚ)) := by
  have hm : pW ∈ (emitParticlesAlongLightning cfgBase gZero [0, 0, 0] 0).1 := by
    with_unfolding_all decide
  obtain ⟨h1, h2⟩ := particle_lifecycle.1 cfgBase gZero [0, 0, 0] 0 pW hm
  exact ⟨hm, h1, h2⟩

/-! ## C7: the emission timer -/

/-- C7 counterexample: with `particleEmissionRate = 0.05` and the accumulator
reaching exactly 0.05 this frame, the code's strict comparison
`particleTimer > particleEmissionRate` fails: no emission call is made and
the accumulator is not reset. -/
theorem emission_trigger_cex :
    (particleTimerStep (1 / 20) 0 (1 / 20)).2 = false ∧
    (particleTimerStep (1 / 20) 0 (1 / 20)).1 = 1 / 20 := by
  refine ⟨?_, ?_⟩ <;> with_unfolding_all decide

/-- C7 (amended): the per-frame trigger condition is strict — the single
emission call of a frame happens if and only if the accumulated timer
strictly exceeds the configured emission interval, in which case the
accumulator is reset to 0; when the accumulator merely reaches the interval
(in particular, exactly 0.05), no emission happens and the accumulator keeps
its value. -/
theorem emission_trigger (rate timer dt : ℚ) :
    ((particleTimerStep rate timer dt).2 = true ↔ rate < timer + dt) ∧
    (rate < timer + dt → particleTimerStep rate timer dt = (0, true)) ∧
    (timer + dt ≤ rate → particleTimerStep rate timer dt = (timer + dt, false)) := by
  unfold particleTimerStep
  by_cases h : rate < timer + dt
  · simp [h]
  · simp [h, not_lt.mp h]

/-- Witness for C7 with the accumulator strictly past the interval. -/
theorem emission_trigger_witness :
    (1 / 20 : ℚ) < 0 + 1 / 10 ∧ particleTimerStep (1 / 20) 0 (1 / 10) = (0, true) :=
  ⟨by norm_num, (emission_trigger (1 / 20) 0 (1 / 10)).2.1 (by norm_num)⟩

/-! ## C10: regeneration with fewer than two sticks -/

/-- C10: when fewer than two sticks exist, `updateLightning` returns
immediately: the vertex buffer is exactly the previous buffer (not cleared,
not modified), no GPU upload is performed, and no random draw is consumed. -/
theorem update_lightning_few_sticks (cfg : Config) (g : ℕ → ℕ) (prev : List ℚ)
    (sticks : List Stick) (i : ℕ) (h : sticks.length < 2) :
    updateLightning cfg g prev sticks i = (prev, false, i) := by
  unfold updateLightning
  rw [if_pos h]

/-- Witness for C10 with one stick and a nonempty previous buffer. -/
theorem update_lightning_few_sticks_witness :
    ([⟨⟨0, 0, 0⟩, 1, ⟨1, 1, 1⟩⟩] : List Stick).length < 2 ∧
    updateLightning cfgBase gZero [1, 2, 3] [⟨⟨0, 0, 0⟩, 1, ⟨1, 1, 1⟩⟩] 0
      = ([1, 2, 3], false, 0) :=
  ⟨by norm_num,
   update_lightning_few_sticks cfgBase gZero [1, 2, 3] [⟨⟨0, 0, 0⟩, 1, ⟨1, 1, 1⟩⟩] 0
     (by norm_num)⟩
